import Mathlib

/-!
# Verification of the `syno-iscsi` CLI decision layer

Shallow embedding of the decision logic of `main.go` and the `syno` package
(LUN/target/volume commands of the `syno-iscsi` CLI).  Commands are modelled as
pure functions from a connection configuration, the remote appliance state (the
data returned by the list calls), the command-line flags/arguments and the
lines available on standard input, to a result consisting of the command
outcome, the lines printed to the output writer, and the ordered trace of
remote-client calls.  The remote client itself (an external collaborator) is
modelled as always succeeding, mirroring the mock client of the repository
test suite.

Machine integers are modelled as `Nat`/`Int` with explicit `% 2 ^ 64` /
wrap-around where the Go code can overflow (`uint64(sizeGB) * gb`,
`int64(size)`).  The byte-size humanizer `readableByteSize` converts its
`uint64` argument to `float64` before taking logarithms; the conversion
(IEEE-754 round-to-nearest-even to 53 significand bits) is modelled exactly by
`fl64`, while the transcendental steps (`math.Log`, `math.Pow`, division by an
exact power of two, `%.2f` formatting) are modelled as exact arithmetic on the
rounded value: `int(Log(f)/Log(1024))` becomes `⌊log₁₀₂₄ f⌋`, computed by
`rbExp`, and the two-decimal rendering of the (exactly representable) scaled
value becomes round-half-to-even on hundredths, computed by `rbFormat`.
-/

namespace SynoIscsi

/-! ## Data model (`webapi` structures used by the CLI) -/

/-- Model of `webapi.VolInfo`: size and free capacity are string-encoded. -/
structure VolInfo where
  Path : String
  Status : String
  FsType : String
  Size : String
  Free : String
deriving DecidableEq

/-- Model of `webapi.LunInfo`; `Size`/`Used` are `uint64` in the source. -/
structure LunInfo where
  Name : String
  Uuid : String
  LunType : Int
  Location : String
  Size : Nat
  Used : Nat
  Status : String
deriving DecidableEq

/-- Model of `webapi.MappedLun`. -/
structure MappedLun where
  LunUuid : String
  MappingIndex : Int
deriving DecidableEq

/-- Model of `webapi.ConncetedSession` (sic, spelled as in the source). -/
structure ConnSession where
  Iqn : String
  Ip : String
deriving DecidableEq

/-- Model of `webapi.TargetInfo`. -/
structure TargetInfo where
  Name : String
  Iqn : String
  MaxSessions : Int
  MappedLuns : List MappedLun
  ConnectedSessions : List ConnSession
  TargetId : Int
deriving DecidableEq

/-- Model of `webapi.LunDevAttrib`. -/
structure LunDevAttrib where
  DevAttrib : String
  Enable : Int
deriving DecidableEq

/-- Model of `webapi.LunCreateSpec` (`Size` is `int64` in the source; the
source field `Type` is spelled `Type'` here because `Type` is a Lean
keyword). -/
structure LunCreateSpec where
  Name : String
  Location : String
  Size : Int
  Type' : String
  DevAttribs : List LunDevAttrib
deriving DecidableEq

/-- Model of `webapi.LunUpdateSpec` (`NewSize` is `uint64`). -/
structure LunUpdateSpec where
  Uuid : String
  NewSize : Nat
deriving DecidableEq

/-- Model of `webapi.LunCloneSpec`. -/
structure LunCloneSpec where
  Name : String
  SrcLunUuid : String
  Location : String
deriving DecidableEq

/-- Model of `webapi.TargetCreateSpec`. -/
structure TargetCreateSpec where
  Name : String
  Iqn : String
deriving DecidableEq

/-- Constant `syno.LUN_SPACE_RECLAMATION`. -/
def LUN_SPACE_RECLAMATION : LunDevAttrib := ⟨"emulate_tpu", 1⟩

/-- Constant `syno.LUN_FUA_WRITE`. -/
def LUN_FUA_WRITE : LunDevAttrib := ⟨"emulate_fua_write", 1⟩

/-- Constant `syno.LUN_SYNC_CACHE`. -/
def LUN_SYNC_CACHE : LunDevAttrib := ⟨"emulate_sync_cache", 1⟩

/-- Function `syno.IsThin`: thin-provisioning classification of appliance LUN type codes. -/
def IsThin (lunType : Int) : Bool :=
  if lunType = 3 then false
  else if lunType = 15 then true
  else if lunType = 259 then false
  else if lunType = 263 then true
  else false

/-- Function `syno.GetLunType`: LUN type code from filesystem type and thin flag. -/
def GetLunType (fsType : String) (thin : Bool) : String :=
  if fsType = "ext4" then (if thin then "ADV" else "FILE")
  else if fsType = "btrfs" then (if thin then "BLUN" else "BLUN_THICK")
  else ""

/-! ## Constants and messages from `main.go` -/

/-- Constant `gb = 1024 * 1024 * 1024`. -/
def gb : Nat := 1024 * 1024 * 1024

def lunReclaimThinMsg : String := "--reclaim can only be used with --thin"

def lunInvalidNameMsg : String :=
  "invalid LUN name, must consist of a-z, A-Z, 0-9, and hyphens (-)"

def lunInvalidSizeMsg : String := "invalid LUN size, must be a positive integer"

def lunCannotDecreaseSizeMsg : String := "LUN cannot decrease in size"

def targetActiveSessionMsg : String :=
  "There are active sessions, please logout of all clients before continuing (force delete with -f)"

def targetForceDeleteMsg : String :=
  "Force deleting even though there are active sessions"

def lunCreatedMsg : String := "LUN created successfully"
def lunMappedMsg : String := "LUN mapped to the target successfully"
def lunResizedMsg : String := "LUN resized successfully"
def lunClonedMsg : String := "LUN cloned successfully"
def lunDeletedMsg : String := "LUN deleted successfully"
def targetCreatedMsg : String := "Target created successfully"
def targetDeletedMsg : String := "Target deleted successfully"

/-- Message `notEnoughArgsMsg` with its two `%d` arguments filled in. -/
def notEnoughArgsMsg (expected got : Nat) : String :=
  "invalid number of arguments, expected " ++ toString expected ++ " but got " ++ toString got

/-- Message `volumeNotEnoughSpaceMsg` with the path and whole-GiB free space filled in. -/
def volumeNotEnoughSpaceMsg (path : String) (gib : Nat) : String :=
  "not enough space, " ++ path ++ " has " ++ toString gib ++ " GiB free"

def volumeNotFoundMsg (path : String) : String :=
  "could not find volume with path: " ++ path

def lunNotFoundMsg (name : String) : String :=
  "could not find LUN with name: " ++ name

def targetNotFoundMsg (name : String) : String :=
  "could not find target with name: " ++ name

def missingGlobalArgsMsg (flags : List String) : String :=
  "the following global flag(s) are missing: " ++ String.intercalate ", " flags

/-! ## Go standard-library parsing semantics -/

/-- Value of a non-empty all-digit character list, `none` otherwise. -/
def decDigitsVal? (l : List Char) : Option Nat :=
  if l.isEmpty then none
  else if l.all (fun c => c.isDigit) then
    some (l.foldl (fun acc c => acc * 10 + (c.toNat - 48)) 0)
  else none

/-- Semantics of `strconv.Atoi` on a 64-bit platform: an optional single sign followed by
one or more decimal digits, with the signed value required to fit `int64`;
everything else (including fractional input) is an error, modelled as `none`. -/
def goAtoi (s : String) : Option Int :=
  let core := fun (sign : Int) (l : List Char) =>
    match decDigitsVal? l with
    | none => none
    | some n =>
      let v : Int := sign * (n : Int)
      if -(2 ^ 63) ≤ v ∧ v ≤ 2 ^ 63 - 1 then some v else none
  match s.toList with
  | '+' :: rest => core 1 rest
  | '-' :: rest => core (-1) rest
  | l => core 1 l

/-- Semantics of `strconv.ParseUint(s, 10, 64)`: decimal digits only (no sign), value must
fit `uint64`. -/
def goParseUint64 (s : String) : Option Nat :=
  match decDigitsVal? s.toList with
  | none => none
  | some n => if n < 2 ^ 64 then some n else none

/-- Semantics of `lunRegex.MatchString`: the regular expression is anchored
`[a-zA-Z0-9-]+`, i.e. a non-empty string of ASCII letters, digits and
hyphens. -/
def lunNameOk (s : String) : Bool :=
  !s.toList.isEmpty && s.toList.all (fun c => c.isAlpha || c.isDigit || c == '-')

/-- Function `bytesToGiB`: `int(size / gb)` (integer division, rounds down). -/
def bytesToGiB (size : Nat) : Nat := size / gb

/-- Conversion `int64(n)` applied to a `uint64` value: wrap-around into the
signed 64-bit range. -/
def toInt64 (n : Nat) : Int :=
  if n < 2 ^ 63 then (n : Int) else (n : Int) - 2 ^ 64

/-! ## The byte-size humanizer `readableByteSize` -/

/-- Number of binary digits of `n` (`⌊log₂ n⌋ + 1` for `n ≥ 1`, `0` for `0`),
computed with structural fuel so that the kernel can evaluate it. -/
def bitlenGo (fuel n : Nat) : Nat :=
  match fuel with
  | 0 => 0
  | fuel + 1 => if n = 0 then 0 else bitlenGo fuel (n / 2) + 1

/-- Bit length with enough fuel for every value below `2 ^ 70`. -/
def bitlen (n : Nat) : Nat := bitlenGo 70 n

/-- The IEEE-754 `float64` value of the `uint64` `n` (the Go conversion
`float64(size)`), as the exact natural number it denotes: round to 53 significand
bits, nearest, ties to even. -/
def fl64 (n : Nat) : Nat :=
  if n < 2 ^ 53 then n
  else
    let k := bitlen n - 53
    let q := n / 2 ^ k
    let r := n % 2 ^ k
    if 2 * r < 2 ^ k then q * 2 ^ k
    else if 2 ^ k < 2 * r then (q + 1) * 2 ^ k
    else if q % 2 = 0 then q * 2 ^ k else (q + 1) * 2 ^ k

/-- Computation of `⌊log₁₀₂₄ n⌋` for `n ≥ 1` (and `0` for `n = 0`), with structural fuel:
the exact value of `int(math.Log(fsize) / math.Log(1024))` in the source. -/
def rbExpGo (fuel n : Nat) : Nat :=
  match fuel with
  | 0 => 0
  | fuel + 1 => if n < 1024 then 0 else rbExpGo fuel (n / 1024) + 1

/-- Unit exponent used by `readableByteSize`, with enough fuel for every
value below `1024 ^ 64`. -/
def rbExp (n : Nat) : Nat := rbExpGo 64 n

/-- The unit table `units` of `readableByteSize`. -/
def rbUnits : List String := ["B", "KiB", "MiB", "GiB", "TiB", "PiB", "EiB"]

/-- Decimal digits of `k`, zero-padded on the left to two characters (the
fractional part of a `%.2f` rendering). -/
def pad2 (k : Nat) : String :=
  if k < 10 then "0" ++ toString k else toString k

/-- Round `a / d` (for `d ≠ 0`) to the nearest integer, ties to even: the
number of hundredths printed by `%.2f` when applied to the exact value
`(a/100) / d`. -/
def rbHundredths (a d : Nat) : Nat :=
  let q := a / d
  let r := a % d
  if 2 * r < d then q
  else if d < 2 * r then q + 1
  else if q % 2 = 0 then q else q + 1

/-- A `%.2f` rendering of the exact nonnegative value `a / (100 * d)`
scaled so that `a` is in hundredths: integer part, a dot, two digits. -/
def rbFormat (a d : Nat) : String :=
  toString (rbHundredths a d / 100) ++ "." ++ pad2 (rbHundredths a d % 100)

/-- Function `readableByteSize`: Go converts `size` to `float64` (modelled by
`fl64`), special-cases `size < 1`, then picks `exp = int(Log(f)/Log(1024))`
(modelled by `rbExp`, the exact floor of the base-1024 logarithm of the
rounded value) and prints `f / 1024^exp` with two decimals and the unit. -/
def readableByteSize (size : Nat) : String :=
  if size < 1 then "0.00 B"
  else
    rbFormat (100 * fl64 size) (1024 ^ rbExp (fl64 size)) ++ " " ++
      rbUnits.getD (rbExp (fl64 size)) "?"

/-! ## Command-layer state: connection, appliance data, call traces -/

/-- The error classes of `main`: `app e` is an `errApp` domain error (printed
as `Error: <msg>`), `other e` is any other error (printed as
`Unknown error: <msg>`); both exit with status 1. -/
inductive CmdErr where
  | app (msg : String)
  | other (msg : String)
deriving DecidableEq

/-- Outcome of a command `Action`: the Go `nil` return or an error. -/
inductive CmdStatus where
  | ok
  | err (e : CmdErr)
deriving DecidableEq

/-- Exit behaviour of `main`: `app.Run` returning an error leads to
`os.Exit(1)`, otherwise the process exits normally (status 0). -/
def exitCode : CmdStatus → Nat
  | .ok => 0
  | .err _ => 1

/-- One invocation of the remote `syno.Client` capability surface. -/
inductive RemoteCall where
  | init (host : String) (port : Int) (user pass : String) (https : Bool)
  | login
  | logout
  | volumeList
  | lunList
  | lunCreate (spec : LunCreateSpec)
  | lunDelete (lunUuid : String)
  | lunUpdate (spec : LunUpdateSpec)
  | lunClone (spec : LunCloneSpec)
  | lunMapTarget (targetIds : List String) (lunUuid : String)
  | targetList
  | targetCreate (spec : TargetCreateSpec)
  | targetDelete (targetId : String)
deriving DecidableEq

def RemoteCall.isLunCreate : RemoteCall → Bool
  | .lunCreate _ => true
  | _ => false

def RemoteCall.isLunDelete : RemoteCall → Bool
  | .lunDelete _ => true
  | _ => false

def RemoteCall.isLunUpdate : RemoteCall → Bool
  | .lunUpdate _ => true
  | _ => false

def RemoteCall.isVolumeList : RemoteCall → Bool
  | .volumeList => true
  | _ => false

def RemoteCall.isTargetDelete : RemoteCall → Bool
  | .targetDelete _ => true
  | _ => false

/-- The global connection flags of `main.go` (`host`, `port`, `user`, `pass`,
`https`), plus whether stdin is a terminal and what a masked password prompt
would read — the inputs consumed by `initAndLogin`. -/
structure Conn where
  host : String
  port : Int
  user : String
  pass : String
  https : Bool
  stdinTerminal : Bool
  typedPass : String
deriving DecidableEq

/-- The appliance state: what the remote list calls return.  The remote
client is modelled as always succeeding (as the mock client in the
repository test suite does); remote-side failures are out of scope. -/
structure Env where
  volumes : List VolInfo
  luns : List LunInfo
  targets : List TargetInfo
deriving DecidableEq

/-- Result of one command `Action`: its outcome, the lines printed to the
output writer (one entry per `Fprint*` call), and the ordered trace of
remote-client calls. -/
structure CmdResult where
  result : CmdStatus
  output : List String
  calls : List RemoteCall
deriving DecidableEq

/-- Outcome of `initAndLogin`: either the missing-global-flags `errApp`, or
the `Init`/`Login` calls made (login always succeeds in the model) together
with any password-prompt output. -/
inductive LoginOutcome where
  | failure (msg : String)
  | success (calls : List RemoteCall) (output : List String)
deriving DecidableEq

/-- Function `initAndLogin`: collects missing global flags (`pass` may instead be read
interactively from a terminal), then calls `Init` and `Login`. -/
def initAndLogin (c : Conn) : LoginOutcome :=
  let missing : List String :=
    (if c.host = "" then ["host"] else []) ++
    (if c.user = "" then ["user"] else []) ++
    (if c.pass = "" ∧ ¬c.stdinTerminal then ["pass"] else [])
  if missing ≠ [] then .failure (missingGlobalArgsMsg missing)
  else if c.pass = "" then
    .success [.init c.host c.port c.user c.typedPass c.https, .login] ["Enter Password: "]
  else
    .success [.init c.host c.port c.user c.pass c.https, .login] []

/-- A connection configuration with all three required global flags present. -/
def goodConn (c : Conn) : Prop :=
  c.host ≠ "" ∧ c.user ≠ "" ∧ c.pass ≠ ""

/-- The `Init` and `Login` trace of a successful `initAndLogin`. -/
def loginCalls (c : Conn) : List RemoteCall :=
  [.init c.host c.port c.user c.pass c.https, .login]

/-- Function `getVolumeByPath`: first volume whose `Path` equals `path`. -/
def getVolumeByPath (env : Env) (path : String) : Option VolInfo :=
  env.volumes.find? (fun volume => path == volume.Path)

/-- Function `getLunByName`: first LUN whose `Name` equals `name`. -/
def getLunByName (env : Env) (name : String) : Option LunInfo :=
  env.luns.find? (fun lun => name == lun.Name)

/-- Function `getTargetByName`: first target whose `Name` equals `name`. -/
def getTargetByName (env : Env) (name : String) : Option TargetInfo :=
  env.targets.find? (fun target => name == target.Name)

/-- Function `scanLine`: one `bufio.Scanner` line read from stdin; at end of input
`Scan` fails and `Text()` is the empty string. -/
def scanLine (stdin : List String) : String := stdin.headD ""

/-- Outcome of the size validation inlined (identically) in `lunCreateCmd`
and `lunResizeCmd`. -/
inductive SizeResult where
  | ok (bytes : Nat)
  | error (msg : String)
deriving DecidableEq

/-- The size-validation code shared verbatim by `lun create` and `lun
resize`: `strconv.Atoi`, reject on error or non-positive value, then
`uint64(sizeGB) * gb` (which wraps modulo `2 ^ 64`). -/
def parseSizeGB (s : String) : SizeResult :=
  match goAtoi s with
  | none => .error lunInvalidSizeMsg
  | some sizeGB =>
    if sizeGB ≤ 0 then .error lunInvalidSizeMsg
    else .ok (sizeGB.toNat * gb % 2 ^ 64)

/-- The names of the targets a LUN is mapped to, annotated with
`" (connected)"` when the target has connected sessions (the
`mappedTargets` loop of `lunDeleteCmd`). -/
def mappedTargetNames (uuid : String) (targets : List TargetInfo) : List String :=
  targets.filterMap fun target =>
    if target.MappedLuns.any (fun mapped => uuid == mapped.LunUuid) then
      some (if target.ConnectedSessions.length > 0 then
              target.Name ++ " (connected)"
            else target.Name)
    else none

/-! ## Command actions -/

/-- Action of `lunCreateCmd`: arg-count check, reclaim-requires-thin check, name
and size validation, login, volume resolution, free-space check, then
`LunCreate` with the spec derived from the flags and the filesystem of the
volume. -/
def lunCreateAction (c : Conn) (env : Env) (thin reclaim syncCache : Bool)
    (args : List String) : CmdResult :=
  if args.length ≠ 3 then
    ⟨.err (.app (notEnoughArgsMsg 3 args.length)), [], []⟩
  else if reclaim && !thin then
    ⟨.err (.app lunReclaimThinMsg), [], []⟩
  else
    let name := args.getD 0 ""
    let volumePath := args.getD 1 ""
    let sizeStr := args.getD 2 ""
    if !lunNameOk name then
      ⟨.err (.app lunInvalidNameMsg), [], []⟩
    else
      match parseSizeGB sizeStr with
      | .error msg => ⟨.err (.app msg), [], []⟩
      | .ok size =>
        match initAndLogin c with
        | .failure msg => ⟨.err (.app msg), [], []⟩
        | .success calls0 out0 =>
          match getVolumeByPath env volumePath with
          | none =>
            ⟨.err (.app (volumeNotFoundMsg volumePath)), out0,
              calls0 ++ [.volumeList, .logout]⟩
          | some volume =>
            match goParseUint64 volume.Free with
            | none =>
              ⟨.err (.other ("strconv.ParseUint: parsing " ++ volume.Free)), out0,
                calls0 ++ [.volumeList, .logout]⟩
            | some free =>
              if free < size then
                ⟨.err (.app (volumeNotEnoughSpaceMsg volumePath (bytesToGiB free))), out0,
                  calls0 ++ [.volumeList, .logout]⟩
              else
                let devAttributes : List LunDevAttrib :=
                  (if reclaim then [LUN_SPACE_RECLAMATION] else []) ++
                  (if syncCache then [LUN_FUA_WRITE, LUN_SYNC_CACHE] else [])
                let spec : LunCreateSpec :=
                  ⟨name, volumePath, toInt64 size, GetLunType volume.FsType thin,
                    devAttributes⟩
                ⟨.ok, out0 ++ [lunCreatedMsg],
                  calls0 ++ [.volumeList, .lunCreate spec, .logout]⟩

/-- Action of `lunResizeCmd`: size validation, login, LUN resolution, the
cannot-decrease check, volume resolution, free-space check on the size
increase, then `LunUpdate`. -/
def lunResizeAction (c : Conn) (env : Env) (args : List String) : CmdResult :=
  if args.length ≠ 2 then
    ⟨.err (.app (notEnoughArgsMsg 2 args.length)), [], []⟩
  else
    let name := args.getD 0 ""
    let sizeStr := args.getD 1 ""
    match parseSizeGB sizeStr with
    | .error msg => ⟨.err (.app msg), [], []⟩
    | .ok size =>
      match initAndLogin c with
      | .failure msg => ⟨.err (.app msg), [], []⟩
      | .success calls0 out0 =>
        match getLunByName env name with
        | none =>
          ⟨.err (.app (lunNotFoundMsg name)), out0, calls0 ++ [.lunList, .logout]⟩
        | some lun =>
          if size ≤ lun.Size then
            ⟨.err (.app lunCannotDecreaseSizeMsg), out0, calls0 ++ [.lunList, .logout]⟩
          else
            match getVolumeByPath env lun.Location with
            | none =>
              ⟨.err (.app (volumeNotFoundMsg lun.Location)), out0,
                calls0 ++ [.lunList, .volumeList, .logout]⟩
            | some volume =>
              match goParseUint64 volume.Free with
              | none =>
                ⟨.err (.other ("strconv.ParseUint: parsing " ++ volume.Free)), out0,
                  calls0 ++ [.lunList, .volumeList, .logout]⟩
              | some free =>
                if free < size - lun.Size then
                  ⟨.err (.app (volumeNotEnoughSpaceMsg lun.Location (bytesToGiB free))),
                    out0, calls0 ++ [.lunList, .volumeList, .logout]⟩
                else
                  ⟨.ok, out0 ++ [lunResizedMsg],
                    calls0 ++ [.lunList, .volumeList, .lunUpdate ⟨lun.Uuid, size⟩, .logout]⟩

/-- Action of `lunCloneCmd`: destination-name validation, login, source-LUN and
volume resolution, free-space check against the source size, then
`LunClone`. -/
def lunCloneAction (c : Conn) (env : Env) (args : List String) : CmdResult :=
  if args.length ≠ 3 then
    ⟨.err (.app (notEnoughArgsMsg 3 args.length)), [], []⟩
  else
    let srcLunName := args.getD 0 ""
    let dstLunName := args.getD 1 ""
    let volumePath := args.getD 2 ""
    if !lunNameOk dstLunName then
      ⟨.err (.app lunInvalidNameMsg), [], []⟩
    else
      match initAndLogin c with
      | .failure msg => ⟨.err (.app msg), [], []⟩
      | .success calls0 out0 =>
        match getLunByName env srcLunName with
        | none =>
          ⟨.err (.app (lunNotFoundMsg srcLunName)), out0, calls0 ++ [.lunList, .logout]⟩
        | some srcLun =>
          match getVolumeByPath env volumePath with
          | none =>
            ⟨.err (.app (volumeNotFoundMsg volumePath)), out0,
              calls0 ++ [.lunList, .volumeList, .logout]⟩
          | some volume =>
            match goParseUint64 volume.Free with
            | none =>
              ⟨.err (.other ("strconv.ParseUint: parsing " ++ volume.Free)), out0,
                calls0 ++ [.lunList, .volumeList, .logout]⟩
            | some free =>
              if free < srcLun.Size then
                ⟨.err (.app (volumeNotEnoughSpaceMsg volumePath (bytesToGiB free))),
                  out0, calls0 ++ [.lunList, .volumeList, .logout]⟩
              else
                ⟨.ok, out0 ++ [lunClonedMsg],
                  calls0 ++ [.lunList, .volumeList,
                    .lunClone ⟨dstLunName, srcLun.Uuid, volumePath⟩, .logout]⟩

/-- Action of `lunDeleteCmd`: login, LUN resolution, then (unless `skip-verify`)
a confirmation prompt listing mapped targets and requiring the LUN name to be
re-typed; mismatch prints `Cancelled` and returns `nil`. -/
def lunDeleteAction (c : Conn) (env : Env) (skip : Bool) (args : List String)
    (stdin : List String) : CmdResult :=
  if args.length ≠ 1 then
    ⟨.err (.app (notEnoughArgsMsg 1 args.length)), [], []⟩
  else
    let name := args.getD 0 ""
    match initAndLogin c with
    | .failure msg => ⟨.err (.app msg), [], []⟩
    | .success calls0 out0 =>
      match getLunByName env name with
      | none =>
        ⟨.err (.app (lunNotFoundMsg name)), out0, calls0 ++ [.lunList, .logout]⟩
      | some lun =>
        if skip then
          ⟨.ok, out0 ++ [lunDeletedMsg],
            calls0 ++ [.lunList, .lunDelete lun.Uuid, .logout]⟩
        else
          let mapped := mappedTargetNames lun.Uuid env.targets
          let promptOut : List String :=
            ["Are you sure you want to delete this lun?"] ++
            (if mapped.isEmpty then []
             else ["It is mapped to the targets: " ++ String.intercalate ", " mapped]) ++
            ["Enter the lun name (" ++ name ++ ") to continue: "]
          if name ≠ scanLine stdin then
            ⟨.ok, out0 ++ promptOut ++ ["Cancelled"],
              calls0 ++ [.lunList, .targetList, .logout]⟩
          else
            ⟨.ok, out0 ++ promptOut ++ [lunDeletedMsg],
              calls0 ++ [.lunList, .targetList, .lunDelete lun.Uuid, .logout]⟩

/-- Action of `targetCreateCmd`: arg-count check, login, then `TargetCreate`
with the raw name and IQN (the source performs no name validation here). -/
def targetCreateAction (c : Conn) (env : Env) (args : List String) : CmdResult :=
  if args.length ≠ 2 then
    ⟨.err (.app (notEnoughArgsMsg 2 args.length)), [], []⟩
  else
    let name := args.getD 0 ""
    let iqn := args.getD 1 ""
    match initAndLogin c with
    | .failure msg => ⟨.err (.app msg), [], []⟩
    | .success calls0 out0 =>
      ⟨.ok, out0 ++ [targetCreatedMsg],
        calls0 ++ [.targetCreate ⟨name, iqn⟩, .logout]⟩

/-- The tail of `targetDeleteCmd.Action` after the active-session gate:
the confirmation prompt (unless `skip-verify`) and the `TargetDelete` call. -/
def targetDeleteFinish (name : String) (target : TargetInfo) (skip : Bool)
    (stdin : List String) (out1 : List String) (calls1 : List RemoteCall) : CmdResult :=
  if skip then
    ⟨.ok, out1 ++ [targetDeletedMsg],
      calls1 ++ [.targetDelete (toString target.TargetId), .logout]⟩
  else
    let promptOut : List String :=
      ["Are you sure you want to delete this target?",
       "Enter the target name (" ++ name ++ ") to continue: "]
    if name ≠ scanLine stdin then
      ⟨.ok, out1 ++ promptOut ++ ["Cancelled"], calls1 ++ [.logout]⟩
    else
      ⟨.ok, out1 ++ promptOut ++ [targetDeletedMsg],
        calls1 ++ [.targetDelete (toString target.TargetId), .logout]⟩

/-- Action of `targetDeleteCmd`: login, target resolution, the active-session
gate (refusal returns `nil` unless `force`), then the confirmation prompt and
`TargetDelete`. -/
def targetDeleteAction (c : Conn) (env : Env) (force skip : Bool)
    (args : List String) (stdin : List String) : CmdResult :=
  if args.length ≠ 1 then
    ⟨.err (.app (notEnoughArgsMsg 1 args.length)), [], []⟩
  else
    let name := args.getD 0 ""
    match initAndLogin c with
    | .failure msg => ⟨.err (.app msg), [], []⟩
    | .success calls0 out0 =>
      match getTargetByName env name with
      | none =>
        ⟨.err (.app (targetNotFoundMsg name)), out0, calls0 ++ [.targetList, .logout]⟩
      | some target =>
        if target.ConnectedSessions.length > 0 then
          if force then
            targetDeleteFinish name target skip stdin
              (out0 ++ [targetForceDeleteMsg]) (calls0 ++ [.targetList])
          else
            ⟨.ok, out0 ++ [targetActiveSessionMsg], calls0 ++ [.targetList, .logout]⟩
        else
          targetDeleteFinish name target skip stdin out0 (calls0 ++ [.targetList])

/-! ## Concrete fixtures (mirroring the test data of the repository) -/

def conn0 : Conn := ⟨"host", 5000, "user", "pass", false, false, ""⟩

def vol1 : VolInfo := ⟨"/vol1", "normal", "ext4", "10737418240", "5368709120"⟩

def vol2 : VolInfo := ⟨"/vol2", "degraded", "btrfs", "5368709120", "5368709120"⟩

def lun1 : LunInfo := ⟨"lun1", "uuid-lun1", 3, "/vol1", 5 * gb, 3 * gb, "normal"⟩

def target1 : TargetInfo :=
  ⟨"target1", "iqn.2000-01.com.synology:target1", 2, [⟨"uuid-lun1", 0⟩],
    [⟨"iqn.1993-08.org.debian:client", "192.168.1.10"⟩], 1⟩

def target2 : TargetInfo :=
  ⟨"target2", "iqn.2000-01.com.synology:target2", 1, [⟨"uuid-lun1", 0⟩], [], 2⟩

def env0 : Env := ⟨[vol1, vol2], [lun1], [target1, target2]⟩

/-! ## Helper lemmas -/

/-- With all global flags present, `initAndLogin` makes exactly the `Init`
and `Login` calls and prints nothing. -/
theorem initAndLogin_good (c : Conn) (h : goodConn c) :
    initAndLogin c = .success (loginCalls c) [] := by
  obtain ⟨h1, h2, h3⟩ := h
  simp [initAndLogin, loginCalls, h1, h2, h3]

/-- Function `rbExpGo` computes `⌊log₁₀₂₄ n⌋` whenever the fuel covers `n`. -/
theorem rbExpGo_bounds (fuel : Nat) : ∀ n, 1 ≤ n → n < 1024 ^ fuel →
    1024 ^ rbExpGo fuel n ≤ n ∧ n < 1024 ^ (rbExpGo fuel n + 1) := by
  induction fuel with
  | zero => intro n h1 h2; simp at h2; omega
  | succ fuel ih =>
    intro n h1 h2
    by_cases hn : n < 1024
    · simp only [rbExpGo, if_pos hn, pow_zero, pow_one]
      exact ⟨h1, hn⟩
    · have hq1 : 1 ≤ n / 1024 := (Nat.one_le_div_iff (by norm_num)).2 (by omega)
      have hq2 : n / 1024 < 1024 ^ fuel := by
        rw [Nat.div_lt_iff_lt_mul (by norm_num)]
        calc n < 1024 ^ (fuel + 1) := h2
          _ = 1024 ^ fuel * 1024 := by rw [pow_succ]
      obtain ⟨ha, hb⟩ := ih (n / 1024) hq1 hq2
      simp only [rbExpGo, if_neg hn]
      constructor
      · have hm : 1024 ^ rbExpGo fuel (n / 1024) * 1024 ≤ n :=
          (Nat.le_div_iff_mul_le (by norm_num : 0 < 1024)).1 ha
        calc 1024 ^ (rbExpGo fuel (n / 1024) + 1)
            = 1024 ^ rbExpGo fuel (n / 1024) * 1024 := by rw [pow_succ]
          _ ≤ n := hm
      · have hm : n < 1024 ^ (rbExpGo fuel (n / 1024) + 1) * 1024 :=
          (Nat.div_lt_iff_lt_mul (by norm_num : 0 < 1024)).1 hb
        calc n < 1024 ^ (rbExpGo fuel (n / 1024) + 1) * 1024 := hm
          _ = 1024 ^ (rbExpGo fuel (n / 1024) + 1 + 1) := by ring

/-- Function `rbExp` brackets its argument between consecutive powers of 1024. -/
theorem rbExp_bounds (n : Nat) (h1 : 1 ≤ n) (h64 : n ≤ 2 ^ 64) :
    1024 ^ rbExp n ≤ n ∧ n < 1024 ^ (rbExp n + 1) := by
  refine rbExpGo_bounds 64 n h1 ?_
  calc n ≤ 2 ^ 64 := h64
    _ < 2 ^ 640 := by norm_num
    _ = 1024 ^ 64 := by
        have : (1024 : Nat) = 2 ^ 10 := by norm_num
        rw [this, ← pow_mul]

/-- Value `rbExp n` is the largest exponent whose power of 1024 is below `n`. -/
theorem rbExp_greatest (n k : Nat) (h1 : 1 ≤ n) (h64 : n ≤ 2 ^ 64)
    (hk : 1024 ^ k ≤ n) : k ≤ rbExp n := by
  by_contra hlt
  have h2 : rbExp n + 1 ≤ k := by omega
  have : 1024 ^ (rbExp n + 1) ≤ 1024 ^ k :=
    Nat.pow_le_pow_right (by norm_num) h2
  have := (rbExp_bounds n h1 h64).2
  omega

theorem bitlenGo_zero (fuel : Nat) : bitlenGo fuel 0 = 0 := by
  cases fuel <;> simp [bitlenGo]

/-- Function `bitlenGo` computes the binary length whenever the fuel covers `n`. -/
theorem bitlenGo_bounds (fuel : Nat) : ∀ n, 1 ≤ n → n < 2 ^ fuel →
    2 ^ (bitlenGo fuel n - 1) ≤ n ∧ n < 2 ^ bitlenGo fuel n ∧ 1 ≤ bitlenGo fuel n := by
  induction fuel with
  | zero => intro n h1 h2; simp at h2; omega
  | succ fuel ih =>
    intro n h1 h2
    have hn : ¬ n = 0 := by omega
    simp only [bitlenGo, if_neg hn]
    by_cases hsmall : n < 2
    · have hn1 : n = 1 := by omega
      subst hn1
      simp [bitlenGo_zero]
    · have hq1 : 1 ≤ n / 2 := (Nat.one_le_div_iff (by norm_num)).2 (by omega)
      have hq2 : n / 2 < 2 ^ fuel := by
        rw [Nat.div_lt_iff_lt_mul (by norm_num)]
        calc n < 2 ^ (fuel + 1) := h2
          _ = 2 ^ fuel * 2 := by rw [pow_succ]
      obtain ⟨ha, hb, hc⟩ := ih (n / 2) hq1 hq2
      refine ⟨?_, ?_, by omega⟩
      · have hm : 2 ^ (bitlenGo fuel (n / 2) - 1) * 2 ≤ n :=
          (Nat.le_div_iff_mul_le (by norm_num : 0 < 2)).1 ha
        have hpow : 2 ^ (bitlenGo fuel (n / 2) + 1 - 1) =
            2 ^ (bitlenGo fuel (n / 2) - 1) * 2 := by
          have h' : bitlenGo fuel (n / 2) + 1 - 1 = bitlenGo fuel (n / 2) - 1 + 1 := by
            omega
          rw [h', pow_succ]
        omega
      · have hm : n < 2 ^ bitlenGo fuel (n / 2) * 2 :=
          (Nat.div_lt_iff_lt_mul (by norm_num : 0 < 2)).1 hb
        have hpow : 2 ^ (bitlenGo fuel (n / 2) + 1) = 2 ^ bitlenGo fuel (n / 2) * 2 := by
          rw [pow_succ]
        omega

/-- Binary-length bracketing for every value below `2 ^ 64`. -/
theorem bitlen_bounds (n : Nat) (h1 : 1 ≤ n) (h64 : n < 2 ^ 64) :
    2 ^ (bitlen n - 1) ≤ n ∧ n < 2 ^ bitlen n ∧ 1 ≤ bitlen n :=
  bitlenGo_bounds 70 n h1 (by calc n < 2 ^ 64 := h64
                                _ ≤ 2 ^ 70 := by norm_num)

/-- The float64 rounding of a positive `uint64` value is positive. -/
theorem fl64_pos (n : Nat) (h1 : 1 ≤ n) (h64 : n < 2 ^ 64) : 1 ≤ fl64 n := by
  simp only [fl64]
  by_cases hs : n < 2 ^ 53
  · rw [if_pos hs]; exact h1
  · rw [if_neg hs]
    obtain ⟨ha, hb, hc⟩ := bitlen_bounds n h1 h64
    have hlen : 54 ≤ bitlen n := by
      by_contra hcon
      have h53 : bitlen n ≤ 53 := by omega
      have : (2 : Nat) ^ bitlen n ≤ 2 ^ 53 := Nat.pow_le_pow_right (by norm_num) h53
      omega
    have hkle : bitlen n - 53 ≤ bitlen n - 1 := by omega
    have hklen : 2 ^ (bitlen n - 53) ≤ n := by
      calc (2 : Nat) ^ (bitlen n - 53) ≤ 2 ^ (bitlen n - 1) :=
            Nat.pow_le_pow_right (by norm_num) hkle
        _ ≤ n := ha
    have hq : 1 ≤ n / 2 ^ (bitlen n - 53) :=
      (Nat.one_le_div_iff (Nat.pos_pow_of_pos _ (by norm_num))).2 hklen
    have hp : 0 < 2 ^ (bitlen n - 53) := Nat.pos_pow_of_pos _ (by norm_num)
    repeat' split
    · exact Nat.mul_pos hq hp
    · exact Nat.mul_pos (by omega) hp
    · exact Nat.mul_pos hq hp
    · exact Nat.mul_pos (by omega) hp

/-- The float64 rounding of a `uint64` value stays below `2 ^ 64`
(rounding up can at most reach the next power of two). -/
theorem fl64_le (n : Nat) (h64 : n < 2 ^ 64) : fl64 n ≤ 2 ^ 64 := by
  simp only [fl64]
  by_cases hs : n < 2 ^ 53
  · rw [if_pos hs]; omega
  · rw [if_neg hs]
    have h1 : 1 ≤ n := by omega
    obtain ⟨ha, hb, hc⟩ := bitlen_bounds n h1 h64
    have hlen : 54 ≤ bitlen n := by
      by_contra hcon
      have : bitlen n ≤ 53 := by omega
      have : (2 : Nat) ^ bitlen n ≤ 2 ^ 53 := Nat.pow_le_pow_right (by norm_num) this
      omega
    have hlen64 : bitlen n ≤ 64 := by
      by_contra hcon
      have h65 : 65 ≤ bitlen n := by omega
      have : (2 : Nat) ^ 64 ≤ 2 ^ (bitlen n - 1) :=
        Nat.pow_le_pow_right (by norm_num) (by omega)
      omega
    have hqlt : n / 2 ^ (bitlen n - 53) < 2 ^ 53 := by
      rw [Nat.div_lt_iff_lt_mul (Nat.pos_pow_of_pos _ (by norm_num))]
      calc n < 2 ^ bitlen n := hb
        _ = 2 ^ 53 * 2 ^ (bitlen n - 53) := by
            rw [← pow_add]
            congr 1
            omega
    have hmul : (n / 2 ^ (bitlen n - 53) + 1) * 2 ^ (bitlen n - 53) ≤ 2 ^ 64 := by
      have hstep : n / 2 ^ (bitlen n - 53) + 1 ≤ 2 ^ 53 := hqlt
      calc (n / 2 ^ (bitlen n - 53) + 1) * 2 ^ (bitlen n - 53)
          ≤ 2 ^ 53 * 2 ^ (bitlen n - 53) := Nat.mul_le_mul_right _ hstep
        _ = 2 ^ (53 + (bitlen n - 53)) := by rw [pow_add]
        _ = 2 ^ bitlen n := by congr 1; omega
        _ ≤ 2 ^ 64 := Nat.pow_le_pow_right (by norm_num) hlen64
    have hdown : n / 2 ^ (bitlen n - 53) * 2 ^ (bitlen n - 53) ≤ 2 ^ 64 := by
      calc n / 2 ^ (bitlen n - 53) * 2 ^ (bitlen n - 53) ≤ n := Nat.div_mul_le_self _ _
        _ ≤ 2 ^ 64 := by omega
    repeat' split
    · exact hdown
    · exact hmul
    · exact hdown
    · exact hmul

/-- Function `fl64` is the identity below the 53-bit significand limit. -/
theorem fl64_small (n : Nat) (h : n < 2 ^ 53) : fl64 n = n := by
  simp only [fl64]
  rw [if_pos h]

/-- Two-digit zero-padding always produces two characters. -/
theorem pad2_length : ∀ k < 100, (pad2 k).length = 2 := by decide

/-! ## Claim theorems -/

/-- C8: a `lun create` invocation with the correct argument count, the
reclaim flag set and the thin flag unset fails with the fixed
reclaim-requires-thin message, regardless of the sync-cache flag and the
argument values, with no output and no remote calls (in particular neither
`Init` nor `Login`) before the rejection. -/
theorem lunCreate_reclaim_without_thin (c : Conn) (env : Env) (syncCache : Bool)
    (args : List String) (hargs : args.length = 3) :
    lunCreateAction c env false true syncCache args =
      ⟨.err (.app lunReclaimThinMsg), [], []⟩ := by
  simp [lunCreateAction, hargs]

theorem lunCreate_reclaim_without_thin_witness :
    lunCreateAction conn0 env0 false true false ["lun1", "/vol1", "5"] =
      ⟨.err (.app lunReclaimThinMsg), [], []⟩ :=
  lunCreate_reclaim_without_thin conn0 env0 false ["lun1", "/vol1", "5"] (by decide)

/-- C7 counterexample: the size string "17179869184" (2^34) parses as a
positive decimal integer, but the computed byte size is
`2^34 * 2^30 mod 2^64 = 0`, not `N * 2^30`: the conversion is not exact for
every accepted positive integer. -/
theorem parseSizeGB_overflow_cex :
    parseSizeGB "17179869184" = .ok 0 ∧ 17179869184 * gb % 2 ^ 64 = 0 ∧
      (0 : Nat) ≠ 17179869184 * gb := by decide

/-- C7 amended: the size validator accepts a string exactly when
`strconv.Atoi` (64-bit decimal parsing, optional sign) yields a positive
integer `N`, rejecting non-numeric, empty, zero, negative and fractional
strings with the invalid-size error; it converts `N` to
`N * 2^30 mod 2^64` bytes, which equals `N * 2^30` exactly whenever
`N * 2^30 < 2^64`; and both `lun create` and `lun resize` reject an invalid
size string with that error before any remote call. -/
theorem parseSizeGB_spec (s : String) (N : Int) (hparse : goAtoi s = some N) :
    (0 < N → parseSizeGB s = .ok (N.toNat * gb % 2 ^ 64)) ∧
    (0 < N → N.toNat * gb < 2 ^ 64 → parseSizeGB s = .ok (N.toNat * gb)) ∧
    (N ≤ 0 → parseSizeGB s = .error lunInvalidSizeMsg) ∧
    (∀ s', goAtoi s' = none → parseSizeGB s' = .error lunInvalidSizeMsg) ∧
    (parseSizeGB "abc" = .error lunInvalidSizeMsg ∧
     parseSizeGB "0" = .error lunInvalidSizeMsg ∧
     parseSizeGB "-5" = .error lunInvalidSizeMsg ∧
     parseSizeGB "2.5" = .error lunInvalidSizeMsg ∧
     parseSizeGB "" = .error lunInvalidSizeMsg ∧
     parseSizeGB "5" = .ok (5 * gb)) ∧
    (∀ c env name s', parseSizeGB s' = .error lunInvalidSizeMsg →
       lunResizeAction c env [name, s'] = ⟨.err (.app lunInvalidSizeMsg), [], []⟩) ∧
    (∀ c env thin syncCache name volPath s', lunNameOk name = true →
       parseSizeGB s' = .error lunInvalidSizeMsg →
       lunCreateAction c env thin false syncCache [name, volPath, s'] =
         ⟨.err (.app lunInvalidSizeMsg), [], []⟩) := by
  refine ⟨?_, ?_, ?_, ?_, by decide, ?_, ?_⟩
  · intro hpos
    simp only [parseSizeGB, hparse]
    rw [if_neg (by omega)]
  · intro hpos hsmall
    simp only [parseSizeGB, hparse]
    rw [if_neg (by omega), Nat.mod_eq_of_lt hsmall]
  · intro hneg
    simp only [parseSizeGB, hparse]
    rw [if_pos hneg]
  · intro s' hnone
    simp only [parseSizeGB, hnone]
  · intro c env name s' herr
    simp [lunResizeAction, herr]
  · intro c env thin syncCache name volPath s' hname herr
    simp [lunCreateAction, hname, herr]

theorem parseSizeGB_spec_witness : parseSizeGB "3" = .ok (3 * gb) :=
  (parseSizeGB_spec "3" 3 (by decide)).2.1 (by decide) (by decide)

/-- C5 counterexample: `target create` performs no name validation at all.
The name "bad_name" is rejected by the LUN-name validator (it contains an
underscore), yet `target create` succeeds and forwards it to the remote
`TargetCreate` call. -/
theorem targetCreate_no_name_validation_cex :
    lunNameOk "bad_name" = false ∧
    (targetCreateAction conn0 env0 ["bad_name", "iqn.2000-01.com.synology:x"]).result
      = .ok ∧
    RemoteCall.targetCreate ⟨"bad_name", "iqn.2000-01.com.synology:x"⟩ ∈
      (targetCreateAction conn0 env0 ["bad_name", "iqn.2000-01.com.synology:x"]).calls := by
  decide

/-- The character class of `lunRegex`, characterized by explicit ASCII
ranges. -/
theorem char_class_iff (ch : Char) :
    (ch.isAlpha || ch.isDigit || ch == '-') = true ↔
      ('A' ≤ ch ∧ ch ≤ 'Z') ∨ ('a' ≤ ch ∧ ch ≤ 'z') ∨
      ('0' ≤ ch ∧ ch ≤ '9') ∨ ch = '-' := by
  have hA : ('A' : Char).val = 65 := rfl
  have hZ : ('Z' : Char).val = 90 := rfl
  have ha : ('a' : Char).val = 97 := rfl
  have hz : ('z' : Char).val = 122 := rfl
  have h0 : ('0' : Char).val = 48 := rfl
  have h9 : ('9' : Char).val = 57 := rfl
  simp only [Char.isAlpha, Char.isUpper, Char.isLower, Char.isDigit,
    Bool.or_eq_true, Bool.and_eq_true, decide_eq_true_eq, beq_iff_eq,
    Char.le_def, ge_iff_le, hA, hZ, ha, hz, h0, h9]
  tauto

/-- C5 amended: the name argument of `lun create` and the destination name of
`lun clone` are validated against `^[A-Za-z0-9-]+$` and rejected with a
descriptive error before any remote call; the validator accepts exactly the
non-empty strings of ASCII letters, digits and hyphens (rejecting
underscores, spaces and the empty string).  `target create`, however,
performs no validation on its name argument. -/
theorem name_validation (c : Conn) (env : Env) (thin reclaim syncCache : Bool)
    (name volumePath sizeStr src dst vol : String)
    (hrt : (reclaim && !thin) = false)
    (hname : lunNameOk name = false) (hdst : lunNameOk dst = false) :
    lunCreateAction c env thin reclaim syncCache [name, volumePath, sizeStr] =
      ⟨.err (.app lunInvalidNameMsg), [], []⟩ ∧
    lunCloneAction c env [src, dst, vol] = ⟨.err (.app lunInvalidNameMsg), [], []⟩ ∧
    (lunNameOk "a_b" = false ∧ lunNameOk "a b" = false ∧ lunNameOk "" = false ∧
     lunNameOk "A-z9" = true) ∧
    (∀ s, lunNameOk s = true ↔
       s.toList ≠ [] ∧ ∀ ch ∈ s.toList,
         ('A' ≤ ch ∧ ch ≤ 'Z') ∨ ('a' ≤ ch ∧ ch ≤ 'z') ∨
         ('0' ≤ ch ∧ ch ≤ '9') ∨ ch = '-') := by
  refine ⟨?_, ?_, by decide, ?_⟩
  · simp [lunCreateAction, hrt, hname]
  · simp [lunCloneAction, hdst]
  · intro s
    have hempty : ∀ l : List Char, (!l.isEmpty) = true ↔ l ≠ [] := by
      intro l; cases l <;> simp
    simp only [lunNameOk, Bool.and_eq_true, hempty, List.all_eq_true]
    constructor
    · rintro ⟨hne, hall⟩
      exact ⟨hne, fun ch hch => (char_class_iff ch).1 (hall ch hch)⟩
    · rintro ⟨hne, hall⟩
      exact ⟨hne, fun ch hch => (char_class_iff ch).2 (hall ch hch)⟩

theorem name_validation_witness :
    lunCreateAction conn0 env0 false false false ["bad_name", "/vol1", "1"] =
      ⟨.err (.app lunInvalidNameMsg), [], []⟩ :=
  (name_validation conn0 env0 false false false "bad_name" "/vol1" "1"
    "lun1" "bad_name" "/vol1" (by decide) (by decide) (by decide)).1

/-- C4: `lun resize` rejects a new size (in bytes, after validation) that
does not exceed the current LUN size with the cannot-decrease error,
without consulting the volume or its free space (`VolumeList` is never
called) and without calling `LunUpdate`; when the new size is strictly
larger, the space requirement compared against the free capacity of the volume
is exactly `new_size - current_size`. -/
theorem lunResize_no_decrease (c : Conn) (env : Env) (name sizeStr : String)
    (B : Nat) (lun : LunInfo)
    (hconn : goodConn c)
    (hsize : parseSizeGB sizeStr = .ok B)
    (hlun : getLunByName env name = some lun) :
    (B ≤ lun.Size →
       lunResizeAction c env [name, sizeStr] =
         ⟨.err (.app lunCannotDecreaseSizeMsg), [],
           loginCalls c ++ [.lunList, .logout]⟩) ∧
    (∀ volume free, lun.Size < B →
       getVolumeByPath env lun.Location = some volume →
       goParseUint64 volume.Free = some free →
       ((free < B - lun.Size →
           lunResizeAction c env [name, sizeStr] =
             ⟨.err (.app (volumeNotEnoughSpaceMsg lun.Location (bytesToGiB free))), [],
               loginCalls c ++ [.lunList, .volumeList, .logout]⟩) ∧
        (B - lun.Size ≤ free →
           lunResizeAction c env [name, sizeStr] =
             ⟨.ok, [lunResizedMsg],
               loginCalls c ++ [.lunList, .volumeList,
                 .lunUpdate ⟨lun.Uuid, B⟩, .logout]⟩))) := by
  have hinit := initAndLogin_good c hconn
  constructor
  · intro hle
    simp [lunResizeAction, hsize, hinit, hlun, hle]
  · intro volume free hlt hvol hfree
    have hnle : ¬ B ≤ lun.Size := by omega
    constructor
    · intro hspace
      simp [lunResizeAction, hsize, hinit, hlun, hvol, hfree, hnle, hspace]
    · intro hspace
      have hns : ¬ free < B - lun.Size := by omega
      simp [lunResizeAction, hsize, hinit, hlun, hvol, hfree, hnle, hns]

theorem lunResize_no_decrease_witness :
    lunResizeAction conn0 env0 ["lun1", "4"] =
      ⟨.err (.app lunCannotDecreaseSizeMsg), [],
        loginCalls conn0 ++ [.lunList, .logout]⟩ :=
  (lunResize_no_decrease conn0 env0 "lun1" "4" (4 * gb) lun1
    (by unfold goodConn; decide) (by decide) (by decide)).1 (by decide)

/-- C3: `lun delete` without skip-verify aborts with `Cancelled` and returns
success (exit status 0) without calling `LunDelete` whenever the line read
from input (the empty string at end of input) differs from the LUN name;
an exactly matching line leads to `LunDelete` on the UUID of the resolved LUN;
with skip-verify the prompt is bypassed and `LunDelete` is called. -/
theorem lunDelete_confirmation (c : Conn) (env : Env) (name : String)
    (lun : LunInfo) (stdin : List String)
    (hconn : goodConn c) (hlun : getLunByName env name = some lun) :
    (name ≠ scanLine stdin →
       (lunDeleteAction c env false [name] stdin).result = .ok ∧
       exitCode (lunDeleteAction c env false [name] stdin).result = 0 ∧
       "Cancelled" ∈ (lunDeleteAction c env false [name] stdin).output ∧
       (lunDeleteAction c env false [name] stdin).calls.all
         (fun k => ! k.isLunDelete) = true) ∧
    (name = scanLine stdin →
       RemoteCall.lunDelete lun.Uuid ∈ (lunDeleteAction c env false [name] stdin).calls) ∧
    ((lunDeleteAction c env true [name] stdin).output = [lunDeletedMsg] ∧
     RemoteCall.lunDelete lun.Uuid ∈ (lunDeleteAction c env true [name] stdin).calls) ∧
    scanLine [] = "" := by
  have hinit := initAndLogin_good c hconn
  refine ⟨?_, ?_, ?_, rfl⟩
  · intro hne
    simp [lunDeleteAction, hinit, hlun, hne, exitCode, loginCalls,
      RemoteCall.isLunDelete]
  · intro heq
    subst heq
    simp [lunDeleteAction, hinit, hlun]
  · constructor
    · simp [lunDeleteAction, hinit, hlun]
    · simp [lunDeleteAction, hinit, hlun]

theorem lunDelete_confirmation_witness :
    RemoteCall.lunDelete lun1.Uuid ∈
      (lunDeleteAction conn0 env0 false ["lun1"] ["lun1"]).calls :=
  (lunDelete_confirmation conn0 env0 "lun1" lun1 ["lun1"]
    (by unfold goodConn; decide) (by decide)).2.1 (by decide)

/-- C2: when the resolved target has connected sessions, `target delete`
without the force flag never calls `TargetDelete` (for either value of
skip-verify) and only reports the refusal; with force and skip-verify it
deletes immediately; with force alone it is still gated by the
name-confirmation prompt (delete exactly on a matching line, `Cancelled`
and no delete otherwise): the two flags are independent and combinable. -/
theorem targetDelete_flags (c : Conn) (env : Env) (name : String)
    (target : TargetInfo) (stdin : List String)
    (hconn : goodConn c) (htgt : getTargetByName env name = some target)
    (hsess : target.ConnectedSessions ≠ []) :
    (∀ skip, (targetDeleteAction c env false skip [name] stdin).calls.all
        (fun k => ! k.isTargetDelete) = true ∧
      (targetDeleteAction c env false skip [name] stdin).result = .ok ∧
      (targetDeleteAction c env false skip [name] stdin).output =
        [targetActiveSessionMsg]) ∧
    (targetDeleteAction c env true true [name] stdin =
      ⟨.ok, [targetForceDeleteMsg, targetDeletedMsg],
        loginCalls c ++ [.targetList, .targetDelete (toString target.TargetId),
          .logout]⟩) ∧
    (name = scanLine stdin →
      RemoteCall.targetDelete (toString target.TargetId) ∈
        (targetDeleteAction c env true false [name] stdin).calls) ∧
    (name ≠ scanLine stdin →
      (targetDeleteAction c env true false [name] stdin).calls.all
        (fun k => ! k.isTargetDelete) = true ∧
      (targetDeleteAction c env true false [name] stdin).result = .ok ∧
      "Cancelled" ∈ (targetDeleteAction c env true false [name] stdin).output) := by
  have hinit := initAndLogin_good c hconn
  have hlen : target.ConnectedSessions.length > 0 := List.length_pos.2 hsess
  refine ⟨?_, ?_, ?_, ?_⟩
  · intro skip
    refine ⟨?_, ?_, ?_⟩ <;>
      simp [targetDeleteAction, hinit, htgt, hlen, loginCalls,
        RemoteCall.isTargetDelete]
  · simp [targetDeleteAction, targetDeleteFinish, hinit, htgt, hlen]
  · intro heq
    subst heq
    simp [targetDeleteAction, targetDeleteFinish, hinit, htgt, hlen]
  · intro hne
    refine ⟨?_, ?_, ?_⟩ <;>
      simp [targetDeleteAction, targetDeleteFinish, hinit, htgt, hlen, hne,
        loginCalls, RemoteCall.isTargetDelete]

theorem targetDelete_flags_witness :
    targetDeleteAction conn0 env0 true true ["target1"] ["nope"] =
      ⟨.ok, [targetForceDeleteMsg, targetDeletedMsg],
        loginCalls conn0 ++ [.targetList,
          .targetDelete (toString target1.TargetId), .logout]⟩ :=
  (targetDelete_flags conn0 env0 "target1" target1 ["nope"]
    (by unfold goodConn; decide) (by decide) (by decide)).2.1

/-- C10: when `target delete` refuses because the target has connected
sessions and force is not set, the command returns success (exit status 0),
printing only the active-sessions message and calling no `TargetDelete` —
unlike a lookup failure, which is an error with exit status 1. -/
theorem targetDelete_refusal_success (c : Conn) (env : Env) (name : String)
    (stdin : List String) (hconn : goodConn c) :
    (∀ target skip, getTargetByName env name = some target →
       target.ConnectedSessions ≠ [] →
       targetDeleteAction c env false skip [name] stdin =
         ⟨.ok, [targetActiveSessionMsg], loginCalls c ++ [.targetList, .logout]⟩ ∧
       exitCode (targetDeleteAction c env false skip [name] stdin).result = 0) ∧
    (getTargetByName env name = none →
       (targetDeleteAction c env false false [name] stdin).result =
         .err (.app (targetNotFoundMsg name)) ∧
       exitCode (targetDeleteAction c env false false [name] stdin).result = 1) := by
  have hinit := initAndLogin_good c hconn
  constructor
  · intro target skip htgt hsess
    have hlen : target.ConnectedSessions.length > 0 := List.length_pos.2 hsess
    constructor
    · simp [targetDeleteAction, hinit, htgt, hlen]
    · simp [targetDeleteAction, hinit, htgt, hlen, exitCode]
  · intro hnone
    constructor
    · simp [targetDeleteAction, hinit, hnone]
    · simp [targetDeleteAction, hinit, hnone, exitCode]

theorem targetDelete_refusal_success_witness :
    targetDeleteAction conn0 env0 false false ["target1"] [] =
      ⟨.ok, [targetActiveSessionMsg], loginCalls conn0 ++ [.targetList, .logout]⟩ :=
  ((targetDelete_refusal_success conn0 env0 "target1" []
    (by unfold goodConn; decide)).1 target1 false (by decide) (by decide)).1

/-- C1 counterexample: with the ext4 volume `/vol1` holding 5 GiB free, the
request for `N = 2^34` gigabytes satisfies `N * 2^30 > F` mathematically,
yet the command succeeds and calls `LunCreate` (the byte size is computed in
`uint64` arithmetic and wraps to `0`). -/
theorem lunCreate_overflow_cex :
    goAtoi "17179869184" = some ((17179869184 : Nat) : Int) ∧
    getVolumeByPath env0 "/vol1" = some vol1 ∧
    goParseUint64 vol1.Free = some (5 * gb) ∧
    5 * gb < 17179869184 * gb ∧
    (lunCreateAction conn0 env0 false false false
        ["mylun", "/vol1", "17179869184"]).calls.all
      (fun k => ! k.isLunCreate) = false ∧
    (lunCreateAction conn0 env0 false false false
        ["mylun", "/vol1", "17179869184"]).result = .ok := by
  decide

/-- C1 amended: for `lun create` with a valid flag combination, a valid name
and a validated size of `N` gigabytes whose byte count `N * 2^30` does not
overflow `int64` (`N * 2^30 < 2^63`), against a resolved volume whose free
capacity parses to `F`: if `N * 2^30 > F` the command fails naming the
volume path and `⌊F / 2^30⌋` GiB free and never calls `LunCreate`;
otherwise it calls `LunCreate` exactly once, with the given name and
location, size `N * 2^30`, the type code from the fixed
filesystem-by-thin table, and device attributes that are empty exactly when
neither reclaim nor sync-cache is set, then prints the created-LUN
message. -/
theorem lunCreate_space_and_spec (c : Conn) (env : Env)
    (thin reclaim syncCache : Bool) (name volumePath sizeStr : String)
    (N F : Nat) (volume : VolInfo)
    (hconn : goodConn c)
    (hrt : (reclaim && !thin) = false)
    (hname : lunNameOk name = true)
    (hatoi : goAtoi sizeStr = some (N : Int))
    (hpos : 0 < N)
    (hbound : N * gb < 2 ^ 63)
    (hvol : getVolumeByPath env volumePath = some volume)
    (hfree : goParseUint64 volume.Free = some F) :
    (F < N * gb →
       lunCreateAction c env thin reclaim syncCache [name, volumePath, sizeStr] =
         ⟨.err (.app (volumeNotEnoughSpaceMsg volumePath (F / gb))), [],
           loginCalls c ++ [.volumeList, .logout]⟩) ∧
    (N * gb ≤ F →
       lunCreateAction c env thin reclaim syncCache [name, volumePath, sizeStr] =
         ⟨.ok, [lunCreatedMsg],
           loginCalls c ++ [.volumeList,
             .lunCreate ⟨name, volumePath, ((N * gb : Nat) : Int),
               (if volume.FsType = "ext4" then (if thin then "ADV" else "FILE")
                else if volume.FsType = "btrfs" then
                  (if thin then "BLUN" else "BLUN_THICK")
                else ""),
               (if reclaim then [LUN_SPACE_RECLAMATION] else []) ++
               (if syncCache then [LUN_FUA_WRITE, LUN_SYNC_CACHE] else [])⟩,
             .logout]⟩) := by
  have hinit := initAndLogin_good c hconn
  have hnpos : ¬ ((N : Int) ≤ 0) := by omega
  have h64 : N * gb < 18446744073709551616 := lt_trans hbound (by norm_num)
  have hbound' : N * gb < 9223372036854775808 := by
    calc N * gb < 2 ^ 63 := hbound
      _ = 9223372036854775808 := by norm_num
  have hparse : parseSizeGB sizeStr = .ok (N * gb) := by
    simp only [parseSizeGB, hatoi]
    rw [if_neg hnpos]
    simp [Nat.mod_eq_of_lt h64]
  constructor
  · intro hlt
    simp [lunCreateAction, hrt, hname, hparse, hinit, hvol, hfree, hlt, bytesToGiB]
  · intro hle
    have hnlt : ¬ F < N * gb := by omega
    simp [lunCreateAction, hrt, hname, hparse, hinit, hvol, hfree, hnlt,
      GetLunType, toInt64, hbound']

theorem lunCreate_space_and_spec_witness :
    lunCreateAction conn0 env0 false false false ["mylun", "/vol1", "10"] =
      ⟨.err (.app (volumeNotEnoughSpaceMsg "/vol1" (5 * gb / gb))), [],
        loginCalls conn0 ++ [.volumeList, .logout]⟩ :=
  (lunCreate_space_and_spec conn0 env0 false false false "mylun" "/vol1" "10"
    10 (5 * gb) vol1 (by unfold goodConn; decide) (by decide) (by decide)
    (by decide) (by decide) (by decide) (by decide) (by decide)).1 (by decide)

/-- C6 counterexample: for `n = 2^60 - 1` the largest base-1024 unit whose
scaled value is at least 1 is PiB (`1024^5 ≤ n < 1024^6`), but the function
renders "1.00 EiB": the `uint64` value is first rounded to `float64`, which
carries `2^60 - 1` up to `2^60` (so the output provably coincides with
`readableByteSize (2^60)`, which the test suite of the repository pins to
"1.00 EiB"). -/
theorem readableByteSize_boundary_cex :
    readableByteSize (2 ^ 60 - 1) = "1.00 EiB" ∧
    readableByteSize (2 ^ 60 - 1) = readableByteSize (2 ^ 60) ∧
    fl64 (2 ^ 60 - 1) = 2 ^ 60 ∧
    2 ^ 60 - 1 < 1024 ^ 6 ∧ rbUnits.getD 6 "?" = "EiB" ∧
    1024 ^ 5 ≤ 2 ^ 60 - 1 ∧ rbUnits.getD 5 "?" = "PiB" := by
  decide

/-- C6 amended: the humanizer first rounds the byte count to `float64`
precision (`fl64`, the identity below `2^53`); the unit is then the largest
base-1024 unit for which the scaled *rounded* value is at least 1, and the
output is that scaled value with exactly two decimal places followed by the
unit; the sample values of the claim hold as stated. -/
theorem readableByteSize_spec (n : Nat) (h0 : 0 < n) (h64 : n < 2 ^ 64) :
    (n < 2 ^ 53 → fl64 n = n) ∧
    1024 ^ rbExp (fl64 n) ≤ fl64 n ∧
    (∀ k, 1024 ^ k ≤ fl64 n → k ≤ rbExp (fl64 n)) ∧
    readableByteSize n =
      rbFormat (100 * fl64 n) (1024 ^ rbExp (fl64 n)) ++ " " ++
        rbUnits.getD (rbExp (fl64 n)) "?" ∧
    (∃ ip fr, fr.length = 2 ∧
       rbFormat (100 * fl64 n) (1024 ^ rbExp (fl64 n)) = ip ++ "." ++ fr) ∧
    readableByteSize 0 = "0.00 B" ∧ readableByteSize 1024 = "1.00 KiB" ∧
    readableByteSize (1024 ^ 6) = "1.00 EiB" ∧
    readableByteSize 123456 = "120.56 KiB" := by
  have hf1 : 1 ≤ fl64 n := fl64_pos n h0 h64
  have hfle : fl64 n ≤ 2 ^ 64 := fl64_le n h64
  obtain ⟨hlo, hhi⟩ := rbExp_bounds (fl64 n) hf1 hfle
  refine ⟨fl64_small n, hlo, ?_, ?_, ?_, by decide, by decide, by decide, by decide⟩
  · intro k hk
    exact rbExp_greatest (fl64 n) k hf1 hfle hk
  · simp [readableByteSize, show ¬ n < 1 by omega]
  · exact ⟨toString (rbHundredths (100 * fl64 n) (1024 ^ rbExp (fl64 n)) / 100),
      pad2 (rbHundredths (100 * fl64 n) (1024 ^ rbExp (fl64 n)) % 100),
      pad2_length _ (Nat.mod_lt _ (by norm_num)), rfl⟩

theorem readableByteSize_spec_witness :
    1024 ^ rbExp (fl64 5120) ≤ fl64 5120 :=
  (readableByteSize_spec 5120 (by decide) (by decide)).2.1

/-- C9: for every byte count below `2^64` the computed unit exponent is
between 0 and 6, hence a valid index into the seven-entry unit table, and
the rendered string always ends in one of the units of the table. -/
theorem readableByteSize_total (n : Nat) (h64 : n < 2 ^ 64) :
    rbExp (fl64 n) ≤ 6 ∧ rbExp (fl64 n) < rbUnits.length ∧
    ∃ u ∈ rbUnits, ∃ p, readableByteSize n = p ++ " " ++ u := by
  by_cases h0 : n = 0
  · subst h0
    exact ⟨by decide, by decide, "B", by decide, "0.00", by decide⟩
  · have h1 : 1 ≤ n := by omega
    have hf1 := fl64_pos n h1 h64
    have hfle := fl64_le n h64
    have hexp : rbExp (fl64 n) ≤ 6 := by
      by_contra hcon
      have h7 : 7 ≤ rbExp (fl64 n) := by omega
      have hge : (1024 : Nat) ^ 7 ≤ 1024 ^ rbExp (fl64 n) :=
        Nat.pow_le_pow_right (by norm_num) h7
      have hle' := (rbExp_bounds (fl64 n) hf1 hfle).1
      have hbig : (1024 : Nat) ^ 7 ≤ 2 ^ 64 := le_trans (le_trans hge hle') hfle
      norm_num at hbig
    have hlen : rbExp (fl64 n) < rbUnits.length := by
      simp only [rbUnits, List.length_cons, List.length_nil]
      omega
    refine ⟨hexp, hlen, rbUnits.getD (rbExp (fl64 n)) "?", ?_,
      rbFormat (100 * fl64 n) (1024 ^ rbExp (fl64 n)), ?_⟩
    · set e := rbExp (fl64 n) with he
      interval_cases e <;> decide
    · simp [readableByteSize, show ¬ n < 1 by omega]

theorem readableByteSize_total_witness :
    rbExp (fl64 123456) ≤ 6 :=
  (readableByteSize_total 123456 (by decide)).1

end SynoIscsi
